import Mathlib

/-!
Shallow embedding of the arbitrage decision engine in `arbitrage_bot.py`
(class `ArbitrageBot`): market view, fee/profit formulas, the two scanner
paths (`scan_full_book`, `scan_inversions`), the best-bid/ask insert update
in `on_order_book`, `refresh_balance`, `refresh_positions`, `handle_order`
and `place_orders`.

Conventions of the embedding:
  * Python `Decimal` values are modelled as `ℚ` (exact decimal arithmetic).
  * A field that may be missing, or whose `Decimal(...)` conversion may
    raise (`KeyError`/`TypeError`/`IndexError`/`decimal.InvalidOperation`),
    is modelled as an `Option`: `none` means the access or conversion fails.
  * External calls (`fetch_account_summary`, `fetch_positions`,
    `submit_orders_batch`, `uuid4`) are oracles supplied as arguments; a
    failing call is `Except.error ()`.
  * A handler that lets a Python exception propagate is modelled by a
    `Bool` "raised" flag paired with the state at the raise point.
-/

/-- One price level of a book snapshot: the Python list `[price, size]`.
`none` models a missing element or a string `Decimal` cannot parse. -/
structure Level where
  price : Option ℚ
  size : Option ℚ
deriving DecidableEq, Repr

/-- One entry of a `data["inserts"]` delta: dict with keys
`side`, `price`, `size`. `none` models a missing key or unparsable value;
the side is kept as the raw string (`"BUY"` / `"SELL"` / anything else). -/
structure InsertEntry where
  price : Option ℚ
  size : Option ℚ
  side : Option String
deriving DecidableEq, Repr

/-- A JSON value sitting in a position field: either a number or a string.
For a string we carry the verdict of Python's `Decimal` parser on it as
data (`none` = `decimal.InvalidOperation`). -/
inductive PyVal where
  | num (q : ℚ)
  | str (s : String) (parsed : Option ℚ)
deriving DecidableEq, Repr

/-- Python truthiness of a non-`None` JSON value: `0` and `""` are falsy. -/
def PyVal.truthy : PyVal → Bool
  | .num q => q ≠ 0
  | .str s _ => s ≠ ""

/-- Result of `Decimal(str(v))` (equivalently `Decimal(v)` for numbers):
numbers round-trip exactly, strings yield their parse verdict. -/
def PyVal.decimalOf : PyVal → Option ℚ
  | .num q => some q
  | .str _ p => p

/-- Python `a or b` on two optional JSON values: `a` if present and truthy,
otherwise `b` (note `b` is returned as-is, truthy or not). -/
def pyOr : Option PyVal → Option PyVal → Option PyVal
  | some v, y => if v.truthy then some v else y
  | none, y => y

/-- Python `a or b` on two optional numeric fields (timestamps):
`0` is falsy. -/
def orQ : Option ℚ → Option ℚ → Option ℚ
  | some t, y => if t ≠ 0 then some t else y
  | none, y => y

/-- One element of the `fetch_positions` result list, with the fields the
bot reads (`pos.get(...)`: `none` = key missing or JSON null). -/
structure PositionData where
  market : Option String
  status : Option String
  entry_price : Option PyVal
  avg_entry_price : Option PyVal
  open_price : Option PyVal
  price : Option PyVal
  closed_at : Option ℚ
  last_updated_at : Option ℚ
  realized_positional_pnl : Option PyVal
deriving DecidableEq, Repr

/-- One in-flight batch: `open_batches[batch_id] = {"buy": ..., "sell": ...}`. -/
structure Batch where
  batch_id : String
  buy_id : String
  sell_id : String
deriving DecidableEq, Repr

/-- The configuration fields the decision engine reads, after
`load_config` has applied its defaults (so every field except the optional
`order_size` cap is total). -/
structure Cfg where
  min_profit_usd : ℚ
  min_profit : ℚ
  taker_fee_pct : ℚ
  maker_fee_pct : ℚ
  order_size : Option ℚ
  leverage : ℚ
  balance_reserved_pct : ℚ
  max_open_orders : ℕ
  market : String
deriving DecidableEq, Repr

/-- The mutable state of `ArbitrageBot` that the claims are about. -/
structure BotState where
  best_bid : Option ℚ
  best_bid_qty : Option ℚ
  best_ask : Option ℚ
  best_ask_qty : Option ℚ
  available_balance_usd : ℚ
  open_batches : List Batch
  has_open_position : Bool
  last_position_pnl : Option ℚ
  open_position_price : Option ℚ
deriving DecidableEq, Repr

/-- The state right after `__init__`. -/
def initState : BotState :=
  { best_bid := none
    best_bid_qty := none
    best_ask := none
    best_ask_qty := none
    available_balance_usd := 0
    open_batches := []
    has_open_position := false
    last_position_pnl := none
    open_position_price := none }

/-- The argument tuple of a `handle_order` call produced by a scanner:
`(price_buy, price_sell, size, direction)`. -/
structure Candidate where
  price_buy : ℚ
  price_sell : ℚ
  size : ℚ
  direction : String
deriving DecidableEq, Repr

/-- What a `handle_order` invocation did. -/
inductive HandleResult where
  | raised
  | skipPosition
  | skipBalance
  | skipMaxOrders
  | submitted (price_buy price_sell size : ℚ) (direction : String)
  | submitFailed (price_buy price_sell size : ℚ) (direction : String)
deriving DecidableEq, Repr

/-- `refresh_balance`: awaits `fetch_account_summary` (the oracle).  The
body has **no** `try`/`except`, so a failing fetch propagates (flag
`true`) with the state untouched; on success the balance is overwritten
only when `free_collateral` is present and truthy (`Option ℚ`, with
`none` covering missing/falsy). -/
def refresh_balance (st : BotState) (fetch : Except Unit (Option ℚ)) :
    BotState × Bool :=
  match fetch with
  | .error _ => (st, true)
  | .ok none => (st, false)
  | .ok (some v) => ({ st with available_balance_usd := v }, false)

/-- `size = min(size, self.cfg["order_size"])` when the cap is configured. -/
def clipSize (cfg : Cfg) (size : ℚ) : ℚ :=
  match cfg.order_size with
  | some cap => min size cap
  | none => size

/-- External interactions consumed by one `handle_order` call: the
balance fetch, whether `submit_orders_batch` succeeds, and the `uuid4`
batch id. -/
structure HandleOracle where
  fetch : Except Unit (Option ℚ)
  submitOk : Bool
  batchId : String

/-- `place_orders`: builds the two limit orders with client ids
`f"{batch_id}-buy"` / `f"{batch_id}-sell"`, submits the batch, and
registers it in `open_batches` only when submission succeeds (a failure
is caught and logged, the batch is not registered). -/
def place_orders (st : BotState) (price_buy price_sell size : ℚ)
    (direction : String) (batchId : String) (submitOk : Bool) :
    BotState × HandleResult :=
  if submitOk then
    ({ st with open_batches :=
        st.open_batches ++ [⟨batchId, batchId ++ "-buy", batchId ++ "-sell"⟩] },
      .submitted price_buy price_sell size direction)
  else
    (st, .submitFailed price_buy price_sell size direction)

/-- `handle_order`: refresh the balance (which may raise), then gates in
order — open position, margin
`(first_price * size) / leverage > available * balance_reserved_pct`,
`max_open_orders` — then `place_orders`. -/
def handle_order (cfg : Cfg) (st : BotState)
    (price_buy price_sell size : ℚ) (direction : String)
    (o : HandleOracle) : BotState × HandleResult :=
  match refresh_balance st o.fetch with
  | (st1, true) => (st1, .raised)
  | (st1, false) =>
    if st1.has_open_position then (st1, .skipPosition)
    else
      let size := clipSize cfg size
      let first_price := if direction = "long" then price_buy else price_sell
      let margin_needed := first_price * size / cfg.leverage
      if margin_needed > st1.available_balance_usd * cfg.balance_reserved_pct then
        (st1, .skipBalance)
      else if cfg.max_open_orders ≤ st1.open_batches.length then
        (st1, .skipMaxOrders)
      else
        place_orders st1 price_buy price_sell size direction o.batchId o.submitOk

/-- `long_profit` in `scan_full_book`:
`(bid_price - ask_price) * size - ask_price*size*taker - bid_price*size*maker`. -/
def full_book_long_profit (cfg : Cfg) (bid_price ask_price size : ℚ) : ℚ :=
  (bid_price - ask_price) * size
    - ask_price * size * cfg.taker_fee_pct
    - bid_price * size * cfg.maker_fee_pct

/-- `short_profit` in `scan_full_book`:
`(ask_price - bid_price) * size - bid_price*size*taker - ask_price*size*maker`. -/
def full_book_short_profit (cfg : Cfg) (bid_price ask_price size : ℚ) : ℚ :=
  (ask_price - bid_price) * size
    - bid_price * size * cfg.taker_fee_pct
    - ask_price * size * cfg.maker_fee_pct

/-- `long_profit` in `scan_inversions`: taker fee on the buy leg,
maker fee on the sell leg. -/
def inversion_long_profit (cfg : Cfg) (price_buy price_sell size : ℚ) : ℚ :=
  (price_sell - price_buy) * size
    - (price_buy * size * cfg.taker_fee_pct + price_sell * size * cfg.maker_fee_pct)

/-- `short_profit` in `scan_inversions`: taker fee on the sell leg,
maker fee on the buy leg. -/
def inversion_short_profit (cfg : Cfg) (price_buy price_sell size : ℚ) : ℚ :=
  (price_sell - price_buy) * size
    - (price_sell * size * cfg.taker_fee_pct + price_buy * size * cfg.maker_fee_pct)

/-- The body of the doubly-nested loop in `scan_full_book` for one
`(bid, ask)` pair: parse the four values (a failure skips the pair),
take `size = min(bid_size, ask_size)`, compute the long and short
fee-adjusted profits, and test the two gated branches in order —
`bid_price >= ask_price + min_profit and long_profit >= min_profit_usd`
emits `handle_order(ask_price, bid_price, size, "long")`, otherwise
`ask_price >= bid_price + min_profit and short_profit >= min_profit_usd`
emits `handle_order(bid_price, ask_price, size, "short")`. -/
def qualifyPair (cfg : Cfg) (bid ask : Level) : Option Candidate :=
  match bid.price, bid.size, ask.price, ask.size with
  | some bid_price, some bid_size, some ask_price, some ask_size =>
    if bid_price ≥ ask_price + cfg.min_profit ∧
        full_book_long_profit cfg bid_price ask_price (min bid_size ask_size)
          ≥ cfg.min_profit_usd then
      some ⟨ask_price, bid_price, min bid_size ask_size, "long"⟩
    else if ask_price ≥ bid_price + cfg.min_profit ∧
        full_book_short_profit cfg bid_price ask_price (min bid_size ask_size)
          ≥ cfg.min_profit_usd then
      some ⟨bid_price, ask_price, min bid_size ask_size, "short"⟩
    else none
  | _, _, _, _ => none

/-- `scan_full_book` up to its single `handle_order` call: empty-side and
open-position guards, then the first qualifying pair in bid-major,
ask-minor order (the nested `for` loops `return` on the first hit). -/
def scan_full_book_candidate (cfg : Cfg) (hasOpen : Bool)
    (bids asks : List Level) : Option Candidate :=
  if bids.isEmpty || asks.isEmpty then none
  else if hasOpen then none
  else bids.findSome? fun bid => asks.findSome? fun ask => qualifyPair cfg bid ask

/-- `scan_full_book` as a state transformer: when a pair qualifies the
scan calls `handle_order` on it and returns; the `Bool` records whether
that call raised. -/
def scan_full_book (cfg : Cfg) (st : BotState) (bids asks : List Level)
    (o : HandleOracle) : BotState × Bool :=
  match scan_full_book_candidate cfg st.has_open_position bids asks with
  | none => (st, false)
  | some c =>
    match handle_order cfg st c.price_buy c.price_sell c.size c.direction o with
    | (st1, .raised) => (st1, true)
    | (st1, _) => (st1, false)

/-- `scan_inversions` up to its single `handle_order` call: needs at
least two inserts, parses exactly `inserts[0]` and `inserts[1]` in one
`try` (any failure returns with no candidate), matches BUY/SELL roles in
either order, rejects unless `price_sell > price_buy`, then the
dual-variant profit selection (`long` wins ties). -/
def scan_inversions_candidate (cfg : Cfg) (inserts : List InsertEntry) :
    Option Candidate :=
  match inserts with
  | first :: second :: _ =>
    match first.price, first.size, first.side,
          second.price, second.size, second.side with
    | some p1, some q1, some s1, some p2, some q2, some s2 =>
      match (if s1 = "BUY" ∧ s2 = "SELL" then some (p1, p2)
             else if s1 = "SELL" ∧ s2 = "BUY" then some (p2, p1)
             else none : Option (ℚ × ℚ)) with
      | none => none
      | some (price_buy, price_sell) =>
        if price_sell ≤ price_buy then none
        else if inversion_long_profit cfg price_buy price_sell (min q1 q2)
              ≥ inversion_short_profit cfg price_buy price_sell (min q1 q2) ∧
            inversion_long_profit cfg price_buy price_sell (min q1 q2)
              ≥ cfg.min_profit_usd then
          some ⟨price_buy, price_sell, min q1 q2, "long"⟩
        else if inversion_short_profit cfg price_buy price_sell (min q1 q2)
            ≥ cfg.min_profit_usd then
          some ⟨price_buy, price_sell, min q1 q2, "short"⟩
        else none
    | _, _, _, _, _, _ => none
  | _ => none

/-- `scan_inversions` as a state transformer (prints the signal, then
calls `handle_order` on the candidate if any). -/
def scan_inversions (cfg : Cfg) (st : BotState) (inserts : List InsertEntry)
    (o : HandleOracle) : BotState × Bool :=
  match scan_inversions_candidate cfg inserts with
  | none => (st, false)
  | some c =>
    match handle_order cfg st c.price_buy c.price_sell c.size c.direction o with
    | (st1, .raised) => (st1, true)
    | (st1, _) => (st1, false)

/-- One iteration of the `for entry in inserts` loop at the end of
`on_order_book`: parse (a failure skips the entry), then a BUY strictly
above the current best bid (or with no best bid yet) replaces the bid
pair, `elif` a SELL strictly below the current best ask (or with no best
ask yet) replaces the ask pair. -/
def applyInsertEntry (st : BotState) (e : InsertEntry) : BotState :=
  match e.price, e.size, e.side with
  | some price, some size, some side =>
    if side = "BUY" then
      match st.best_bid with
      | none => { st with best_bid := some price, best_bid_qty := some size }
      | some b =>
        if price > b then { st with best_bid := some price, best_bid_qty := some size }
        else st
    else if side = "SELL" then
      match st.best_ask with
      | none => { st with best_ask := some price, best_ask_qty := some size }
      | some a =>
        if price < a then { st with best_ask := some price, best_ask_qty := some size }
        else st
    else st
  | _, _, _ => st

/-- The four unguarded assignments
`best_bid := Decimal(bids[0][0]); ...; best_ask_qty := Decimal(asks[0][1])`
at the top of `on_order_book`.  These are **not** wrapped in `try`, so a
parse failure raises mid-sequence, leaving the earlier assignments in
place (flag `true` = raised). -/
def applySnapshotTop (st : BotState) (b a : Level) : BotState × Bool :=
  match b.price with
  | none => (st, true)
  | some bp =>
    let st := { st with best_bid := some bp }
    match b.size with
    | none => (st, true)
    | some bq =>
      let st := { st with best_bid_qty := some bq }
      match a.price with
      | none => (st, true)
      | some ap =>
        let st := { st with best_ask := some ap }
        match a.size with
        | none => (st, true)
        | some aq => ({ st with best_ask_qty := some aq }, false)

/-- The `data` payload of one book message: `bids`/`asks` may be absent
(`data.get`), `inserts` defaults to `[]`. -/
structure BookMessage where
  bids : Option (List Level)
  asks : Option (List Level)
  inserts : List InsertEntry
deriving Repr

/-- The insert-processing tail of `on_order_book`: `scan_inversions` when
`inserts` is nonempty (its `handle_order` may raise, aborting the rest),
then the per-entry best-bid/ask update loop. -/
def onOrderBookInserts (cfg : Cfg) (st : BotState)
    (inserts : List InsertEntry) (o2 : HandleOracle) : BotState × Bool :=
  if inserts.isEmpty then (inserts.foldl applyInsertEntry st, false)
  else
    match scan_inversions cfg st inserts o2 with
    | (st1, true) => (st1, true)
    | (st1, false) => (inserts.foldl applyInsertEntry st1, false)

/-- `on_order_book`: when both `bids` and `asks` are present and
nonempty, assign the four top-of-book fields (may raise mid-way) and run
`scan_full_book` (whose `handle_order` may raise); then process
`inserts`.  A raise anywhere aborts the remainder of the handler. -/
def on_order_book (cfg : Cfg) (st : BotState) (msg : BookMessage)
    (o1 o2 : HandleOracle) : BotState × Bool :=
  match msg.bids, msg.asks with
  | some (b :: bs), some (a :: as_) =>
    match applySnapshotTop st b a with
    | (st1, true) => (st1, true)
    | (st1, false) =>
      match scan_full_book cfg st1 (b :: bs) (a :: as_) o1 with
      | (st2, true) => (st2, true)
      | (st2, false) => onOrderBookInserts cfg st2 msg.inserts o2
  | _, _ => onOrderBookInserts cfg st msg.inserts o2

/-- The price chain read for an OPEN position:
`entry_price or avg_entry_price or open_price or price`. -/
def posPriceChain (pos : PositionData) : Option PyVal :=
  pyOr pos.entry_price (pyOr pos.avg_entry_price (pyOr pos.open_price pos.price))

/-- `Decimal(str(price))` applied to the chain value inside a
`try`/`except` that falls back to `None`: absent chain value or a parse
failure both leave `open_position_price = None`. -/
def openPosPriceOf (pos : PositionData) : Option ℚ :=
  (posPriceChain pos).bind PyVal.decimalOf

/-- `realized_positional_pnl or "0"` then `Decimal(...)` with a
fall-back to `Decimal("0")` on parse failure. -/
def parsePnl (v : Option PyVal) : ℚ :=
  match v with
  | none => 0
  | some v => if v.truthy then (v.decimalOf).getD 0 else 0

/-- The `for pos in results` loop of `refresh_positions`: skip other
markets; on the first OPEN position set the flag and entry price and
`return` (skipping the trailing `last_position_pnl` update); track the
most recent CLOSED position's pnl otherwise. -/
def positionsLoop (market : String) (st : BotState) :
    List PositionData → Option ℚ → Option ℚ → BotState
  | [], _, latestPnl =>
    match latestPnl with
    | some p => { st with last_position_pnl := some p }
    | none => st
  | pos :: rest, latestTime, latestPnl =>
    if pos.market ≠ some market then positionsLoop market st rest latestTime latestPnl
    else if pos.status = some "OPEN" then
      { st with has_open_position := true, open_position_price := openPosPriceOf pos }
    else if pos.status = some "CLOSED" then
      match orQ pos.closed_at pos.last_updated_at with
      | none => positionsLoop market st rest latestTime latestPnl
      | some t =>
        match latestTime with
        | none =>
          positionsLoop market st rest (some t) (some (parsePnl pos.realized_positional_pnl))
        | some lt =>
          if t > lt then
            positionsLoop market st rest (some t) (some (parsePnl pos.realized_positional_pnl))
          else positionsLoop market st rest latestTime latestPnl
    else positionsLoop market st rest latestTime latestPnl

/-- `refresh_positions`: a failing `fetch_positions` is caught, logged
and leaves all state untouched; otherwise reset the open-position fields
and run the loop over `results`. -/
def refresh_positions (market : String) (st : BotState)
    (fetch : Except Unit (List PositionData)) : BotState :=
  match fetch with
  | .error _ => st
  | .ok results =>
    positionsLoop market
      { st with has_open_position := false, open_position_price := none }
      results none none

/-- The four market-view fields as a tuple. -/
def viewOf (st : BotState) : Option ℚ × Option ℚ × Option ℚ × Option ℚ :=
  (st.best_bid, st.best_bid_qty, st.best_ask, st.best_ask_qty)

/-- Did this `handle_order` outcome get past the margin gate?  (True for
the max-open-orders rejection and for both submission outcomes, which
all come after the margin check.) -/
def HandleResult.passedMarginGate : HandleResult → Bool
  | .skipMaxOrders => true
  | .submitted _ _ _ _ => true
  | .submitFailed _ _ _ _ => true
  | _ => false

/-- The predicate `refresh_positions` effectively stops at: position for
the configured market with status OPEN. -/
def isOpenFor (market : String) (p : PositionData) : Bool :=
  p.market == some market && p.status == some "OPEN"

/-- A configuration with zero floors and fees, used for concrete runs. -/
def cfgZero : Cfg := ⟨0, 0, 0, 0, none, 1, 1, 1, "M"⟩

/-- An oracle whose balance fetch succeeds with falsy collateral and
whose submission succeeds. -/
def oracleOk : HandleOracle := ⟨.ok none, true, "batch"⟩

/-- Fresh state with an open position. -/
def stOpen : BotState := { initState with has_open_position := true }

/-- Fresh state with 1000 USD of free collateral. -/
def st1000 : BotState := { initState with available_balance_usd := 1000 }

lemma refresh_balance_view (st : BotState) (f : Except Unit (Option ℚ)) :
    viewOf (refresh_balance st f).1 = viewOf st := by
  cases f with
  | error e => rfl
  | ok v => cases v <;> rfl

lemma refresh_balance_has_open (st : BotState) (f : Except Unit (Option ℚ)) :
    (refresh_balance st f).1.has_open_position = st.has_open_position := by
  cases f with
  | error e => rfl
  | ok v => cases v <;> rfl

lemma refresh_balance_batches (st : BotState) (f : Except Unit (Option ℚ)) :
    (refresh_balance st f).1.open_batches = st.open_batches := by
  cases f with
  | error e => rfl
  | ok v => cases v <;> rfl

lemma place_orders_view (st : BotState) (pb ps size : ℚ) (dir bid : String)
    (ok : Bool) : viewOf (place_orders st pb ps size dir bid ok).1 = viewOf st := by
  cases ok <;> rfl

lemma handle_order_view (cfg : Cfg) (st : BotState) (pb ps size : ℚ)
    (dir : String) (o : HandleOracle) :
    viewOf (handle_order cfg st pb ps size dir o).1 = viewOf st := by
  unfold handle_order
  rcases h : refresh_balance st o.fetch with ⟨st1, raised⟩
  have hv : viewOf st1 = viewOf st := by
    have hview := refresh_balance_view st o.fetch
    rw [h] at hview; exact hview
  cases raised
  · simp only []
    repeat' split
    all_goals
      first
        | exact hv
        | exact (place_orders_view st1 pb ps _ dir o.batchId o.submitOk).trans hv
  · exact hv

lemma scan_inversions_view (cfg : Cfg) (st : BotState)
    (inserts : List InsertEntry) (o : HandleOracle) :
    viewOf (scan_inversions cfg st inserts o).1 = viewOf st := by
  unfold scan_inversions
  rcases hc : scan_inversions_candidate cfg inserts with _ | c
  · rfl
  · rcases hh : handle_order cfg st c.price_buy c.price_sell c.size c.direction o
      with ⟨st1, r⟩
    have hv : viewOf st1 = viewOf st := by
      have hview := handle_order_view cfg st c.price_buy c.price_sell c.size c.direction o
      rw [hh] at hview; exact hview
    show viewOf
      (match handle_order cfg st c.price_buy c.price_sell c.size c.direction o with
        | (st1, HandleResult.raised) => (st1, true)
        | (st1, _) => (st1, false)).1 = viewOf st
    rw [hh]
    cases r <;> exact hv

/-- C1: a call that reaches `handle_order` while `has_open_position` is
true either propagates the balance-refresh exception or returns at the
position gate; in both cases nothing is submitted and `open_batches` is
unchanged.  Moreover `scan_full_book` is skipped entirely in that state:
it yields no candidate and leaves the state untouched. -/
theorem position_gate_blocks_all_submission (cfg : Cfg) (st : BotState)
    (price_buy price_sell size : ℚ) (direction : String) (o o' : HandleOracle)
    (bids asks : List Level)
    (h : st.has_open_position = true) :
    ((handle_order cfg st price_buy price_sell size direction o).2 = .raised ∨
      (handle_order cfg st price_buy price_sell size direction o).2 = .skipPosition)
    ∧ (handle_order cfg st price_buy price_sell size direction o).1.open_batches
        = st.open_batches
    ∧ scan_full_book_candidate cfg st.has_open_position bids asks = none
    ∧ scan_full_book cfg st bids asks o' = (st, false) := by
  have hscan : scan_full_book_candidate cfg st.has_open_position bids asks = none := by
    simp [scan_full_book_candidate, h]
  refine ⟨?_, ?_, hscan, ?_⟩
  · unfold handle_order
    rcases hf : refresh_balance st o.fetch with ⟨st1, raised⟩
    have hopen : st1.has_open_position = true := by
      have hpres := refresh_balance_has_open st o.fetch
      rw [hf] at hpres; rw [show st1.has_open_position = (st1, raised).1.has_open_position from rfl, hpres, h]
    cases raised
    · right; simp [hopen]
    · left; rfl
  · unfold handle_order
    rcases hf : refresh_balance st o.fetch with ⟨st1, raised⟩
    have hopen : st1.has_open_position = true := by
      have hpres := refresh_balance_has_open st o.fetch
      rw [hf] at hpres; rw [show st1.has_open_position = (st1, raised).1.has_open_position from rfl, hpres, h]
    have hbatch : st1.open_batches = st.open_batches := by
      have hpres := refresh_balance_batches st o.fetch
      rw [hf] at hpres; exact hpres
    cases raised
    · simp [hopen, hbatch]
    · exact hbatch
  · unfold scan_full_book
    rw [hscan]

/-- Closed instance of `position_gate_blocks_all_submission` at a
concrete profitable candidate and fresh-but-open state. -/
theorem position_gate_blocks_all_submission_witness :
    ((handle_order cfgZero stOpen 100 101 1 "long" oracleOk).2 = .raised ∨
      (handle_order cfgZero stOpen 100 101 1 "long" oracleOk).2 = .skipPosition)
    ∧ (handle_order cfgZero stOpen 100 101 1 "long" oracleOk).1.open_batches
        = stOpen.open_batches
    ∧ scan_full_book_candidate cfgZero stOpen.has_open_position
        [⟨some 102, some 1⟩] [⟨some 100, some 1⟩] = none
    ∧ scan_full_book cfgZero stOpen [⟨some 102, some 1⟩] [⟨some 100, some 1⟩]
        oracleOk = (stOpen, false) :=
  position_gate_blocks_all_submission cfgZero stOpen 100 101 1 "long"
    oracleOk oracleOk [⟨some 102, some 1⟩] [⟨some 100, some 1⟩] rfl

/-- C2: `refresh_balance` has no `try`/`except` around the
account-summary query, so a failing query propagates the exception
(flag `true`) instead of being caught and logged; the previous balance
value is still in place at the raise point.  This contradicts the spec's
fails-silently-logged contract (compare `refresh_positions`, which does
catch, and the earlier iteration in `async_bot.py`). -/
theorem refresh_balance_error_raises :
    refresh_balance st1000 (.error ()) = (st1000, true)
    ∧ (refresh_balance st1000 (.error ())).1.available_balance_usd = 1000 :=
  ⟨rfl, rfl⟩

/-- C6: with a successful balance refresh and no open position, the
margin gate rejects exactly when
`first_price * clipped_size / leverage` strictly exceeds
`available_balance_usd * balance_reserved_pct` (first_price being the
buy leg for "long" and the sell leg otherwise), and at exact equality
the call proceeds past the margin gate. -/
theorem margin_gate_strict_inclusive (cfg : Cfg) (st : BotState)
    (price_buy price_sell size : ℚ) (direction : String) (o : HandleOracle)
    (v : Option ℚ) (hf : o.fetch = .ok v)
    (hopen : st.has_open_position = false) :
    ((if direction = "long" then price_buy else price_sell) * clipSize cfg size
        / cfg.leverage
        > (refresh_balance st o.fetch).1.available_balance_usd * cfg.balance_reserved_pct →
      handle_order cfg st price_buy price_sell size direction o
        = ((refresh_balance st o.fetch).1, .skipBalance))
    ∧ ((if direction = "long" then price_buy else price_sell) * clipSize cfg size
        / cfg.leverage
        = (refresh_balance st o.fetch).1.available_balance_usd * cfg.balance_reserved_pct →
      (handle_order cfg st price_buy price_sell size direction o).2.passedMarginGate
        = true) := by
  rcases hrb : refresh_balance st o.fetch with ⟨st1, raised⟩
  have hraised : raised = false := by
    have hsnd : (refresh_balance st o.fetch).2 = false := by
      rw [hf]; cases v <;> rfl
    rw [hrb] at hsnd; exact hsnd
  subst hraised
  have hopen1 : st1.has_open_position = false := by
    have hpres := refresh_balance_has_open st o.fetch
    rw [hrb] at hpres
    exact hpres.trans hopen
  simp only [handle_order, hrb, hopen1, Bool.false_eq_true, if_false]
  constructor
  · intro hgt
    simp only [if_pos hgt]
  · intro heq
    have hnot : ¬ ((if direction = "long" then price_buy else price_sell) * clipSize cfg size
        / cfg.leverage > st1.available_balance_usd * cfg.balance_reserved_pct) := by
      rw [heq]; exact lt_irrefl _
    simp only [if_neg hnot]
    split
    · rfl
    · unfold place_orders
      cases o.submitOk <;> rfl

lemma nested_findSome?_eq_product {α β γ : Type} (f : α → β → Option γ)
    (l1 : List α) (l2 : List β) :
    (l1.findSome? fun a => l2.findSome? fun b => f a b)
      = ((l1.flatMap fun a => l2.map fun b => (a, b)).findSome?
          fun p => f p.1 p.2) := by
  induction l1 with
  | nil => rfl
  | cons a l1 ih =>
    rw [List.flatMap_cons, List.findSome?_append, List.findSome?_map, ← ih,
      List.findSome?_cons]
    have hcomp : (List.findSome? ((fun p : α × β => f p.1 p.2) ∘ fun b => (a, b)) l2)
        = List.findSome? (fun b => f a b) l2 := rfl
    rw [hcomp]
    cases List.findSome? (fun b => f a b) l2 <;> rfl

/-- C5: on bids `[102, 101]`, asks `[100, 99]` (unit sizes), spread floor
`min_profit = 1`, zero fees, the full-depth scan emits exactly
`(buy=100, sell=102, size=1, long)`; and in general when no position is
open the scan returns the first qualifying `(bid, ask)` pair of the
bid-major, ask-minor product order — first-fit, not best-fit. -/
theorem full_scan_first_fit :
    (scan_full_book_candidate ⟨1, 1, 0, 0, none, 1, 1, 1, "M"⟩ false
        [⟨some 102, some 1⟩, ⟨some 101, some 1⟩]
        [⟨some 100, some 1⟩, ⟨some 99, some 1⟩]
      = some ⟨100, 102, 1, "long"⟩)
    ∧ ∀ (cfg : Cfg) (bids asks : List Level),
      scan_full_book_candidate cfg false bids asks
        = if bids.isEmpty || asks.isEmpty then none
          else (bids.flatMap fun b => asks.map fun a => (b, a)).findSome?
            fun p => qualifyPair cfg p.1 p.2 := by
  constructor
  · norm_num [scan_full_book_candidate, qualifyPair, full_book_long_profit,
      full_book_short_profit, List.findSome?]
  · intro cfg bids asks
    by_cases h : (bids.isEmpty || asks.isEmpty) = true
    · simp [scan_full_book_candidate, h]
    · simp only [scan_full_book_candidate, h, Bool.false_eq_true, if_false,
        if_neg]
      exact nested_findSome?_eq_product (qualifyPair cfg) bids asks

/-- C8: the pairwise delta cross-check never emits a candidate unless
the sell-leg price strictly exceeds the buy-leg price; in particular two
crossing-side inserts at equal prices yield no candidate and
`scan_inversions` leaves the state untouched and submits nothing. -/
theorem equal_price_pairwise_rejected (cfg : Cfg) (st : BotState)
    (o : HandleOracle) (p q1 q2 : ℚ) (s1 s2 : String)
    (rest inserts : List InsertEntry) (c : Candidate)
    (hs : (s1 = "BUY" ∧ s2 = "SELL") ∨ (s1 = "SELL" ∧ s2 = "BUY")) :
    (scan_inversions_candidate cfg
        (⟨some p, some q1, some s1⟩ :: ⟨some p, some q2, some s2⟩ :: rest) = none)
    ∧ (scan_inversions cfg st
        (⟨some p, some q1, some s1⟩ :: ⟨some p, some q2, some s2⟩ :: rest) o
      = (st, false))
    ∧ (scan_inversions_candidate cfg inserts = some c →
      c.price_buy < c.price_sell) := by
  have h1 : scan_inversions_candidate cfg
      (⟨some p, some q1, some s1⟩ :: ⟨some p, some q2, some s2⟩ :: rest) = none := by
    rcases hs with ⟨hA, hB⟩ | ⟨hA, hB⟩ <;> subst hA <;> subst hB <;>
      simp [scan_inversions_candidate]
  refine ⟨h1, ?_, ?_⟩
  · unfold scan_inversions
    rw [h1]
  · intro h
    rcases inserts with _ | ⟨⟨p1, q1', s1'⟩, _ | ⟨⟨p2, q2', s2'⟩, rest'⟩⟩
    · exact absurd h (by simp [scan_inversions_candidate])
    · exact absurd h (by simp [scan_inversions_candidate])
    · simp only [scan_inversions_candidate] at h
      rcases p1 with _ | p1 <;> rcases q1' with _ | q1' <;>
        rcases s1' with _ | s1' <;> rcases p2 with _ | p2 <;>
        rcases q2' with _ | q2' <;> rcases s2' with _ | s2' <;>
        simp only [] at h
      all_goals try exact Option.noConfusion h
      split at h
      · exact Option.noConfusion h
      · split at h
        · exact Option.noConfusion h
        · split at h
          · cases Option.some.inj h
            simpa using not_le.mp (by assumption)
          · split at h
            · cases Option.some.inj h
              simpa using not_le.mp (by assumption)
            · exact Option.noConfusion h

/-- Closed instance of `equal_price_pairwise_rejected`: two equal-price
2551 inserts yield nothing, and a strict-cross pair yields a candidate
whose buy price is below its sell price. -/
theorem equal_price_pairwise_rejected_witness :
    (scan_inversions_candidate cfgZero
        [⟨some 2551, some 1, some "SELL"⟩, ⟨some 2551, some 1, some "BUY"⟩] = none)
    ∧ (scan_inversions cfgZero initState
        [⟨some 2551, some 1, some "SELL"⟩, ⟨some 2551, some 1, some "BUY"⟩]
        oracleOk = (initState, false))
    ∧ ((100 : ℚ) < 101) :=
  have h := equal_price_pairwise_rejected cfgZero initState oracleOk 2551 1 1
    "SELL" "BUY" []
    [⟨some 100, some 1, some "BUY"⟩, ⟨some 101, some 1, some "SELL"⟩]
    ⟨100, 101, 1, "long"⟩ (Or.inr ⟨rfl, rfl⟩)
  ⟨h.1, h.2.1, h.2.2 (by norm_num [scan_inversions_candidate, cfgZero,
    inversion_long_profit, inversion_short_profit])⟩

/-- C4: in both scanner paths the profit-floor comparison is inclusive:
a candidate whose fee-adjusted net profit equals `min_profit_usd` exactly
is accepted (in the branch its spread/tie gates select), and when both
variants' net profits are strictly below the floor no candidate is
emitted. -/
theorem profit_floor_inclusive (cfg : Cfg) (bp bq ap aq p1 q1 p2 q2 : ℚ)
    (rest : List InsertEntry) :
    (bp ≥ ap + cfg.min_profit →
      full_book_long_profit cfg bp ap (min bq aq) = cfg.min_profit_usd →
      qualifyPair cfg ⟨some bp, some bq⟩ ⟨some ap, some aq⟩
        = some ⟨ap, bp, min bq aq, "long"⟩)
    ∧ (¬ bp ≥ ap + cfg.min_profit → ap ≥ bp + cfg.min_profit →
      full_book_short_profit cfg bp ap (min bq aq) = cfg.min_profit_usd →
      qualifyPair cfg ⟨some bp, some bq⟩ ⟨some ap, some aq⟩
        = some ⟨bp, ap, min bq aq, "short"⟩)
    ∧ (full_book_long_profit cfg bp ap (min bq aq) < cfg.min_profit_usd →
      full_book_short_profit cfg bp ap (min bq aq) < cfg.min_profit_usd →
      qualifyPair cfg ⟨some bp, some bq⟩ ⟨some ap, some aq⟩ = none)
    ∧ (p1 < p2 →
      inversion_long_profit cfg p1 p2 (min q1 q2)
        ≥ inversion_short_profit cfg p1 p2 (min q1 q2) →
      inversion_long_profit cfg p1 p2 (min q1 q2) = cfg.min_profit_usd →
      scan_inversions_candidate cfg
        (⟨some p1, some q1, some "BUY"⟩ :: ⟨some p2, some q2, some "SELL"⟩ :: rest)
        = some ⟨p1, p2, min q1 q2, "long"⟩)
    ∧ (p1 < p2 →
      inversion_long_profit cfg p1 p2 (min q1 q2)
        < inversion_short_profit cfg p1 p2 (min q1 q2) →
      inversion_short_profit cfg p1 p2 (min q1 q2) = cfg.min_profit_usd →
      scan_inversions_candidate cfg
        (⟨some p1, some q1, some "BUY"⟩ :: ⟨some p2, some q2, some "SELL"⟩ :: rest)
        = some ⟨p1, p2, min q1 q2, "short"⟩)
    ∧ (p1 < p2 →
      inversion_long_profit cfg p1 p2 (min q1 q2) < cfg.min_profit_usd →
      inversion_short_profit cfg p1 p2 (min q1 q2) < cfg.min_profit_usd →
      scan_inversions_candidate cfg
        (⟨some p1, some q1, some "BUY"⟩ :: ⟨some p2, some q2, some "SELL"⟩ :: rest)
        = none) := by
  refine ⟨?_, ?_, ?_, ?_, ?_, ?_⟩
  · intro h1 h2
    simp only [qualifyPair]
    rw [if_pos ⟨h1, h2.ge⟩]
  · intro h1 h2 h3
    simp only [qualifyPair]
    rw [if_neg (fun hc => h1 hc.1), if_pos ⟨h2, h3.ge⟩]
  · intro h1 h2
    simp only [qualifyPair]
    rw [if_neg (fun hc => absurd hc.2 (not_le.mpr h1)),
      if_neg (fun hc => absurd hc.2 (not_le.mpr h2))]
  · intro h1 h2 h3
    simp only [scan_inversions_candidate]
    rw [if_pos ⟨trivial, trivial⟩]
    simp only []
    rw [if_neg (not_le.mpr h1), if_pos ⟨h2, h3.ge⟩]
  · intro h1 h2 h3
    simp only [scan_inversions_candidate]
    rw [if_pos ⟨trivial, trivial⟩]
    simp only []
    rw [if_neg (not_le.mpr h1),
      if_neg (fun hc => absurd hc.1 (not_le.mpr h2)), if_pos h3.ge]
  · intro h1 h2 h3
    simp only [scan_inversions_candidate]
    rw [if_pos ⟨trivial, trivial⟩]
    simp only []
    rw [if_neg (not_le.mpr h1),
      if_neg (fun hc => absurd hc.2 (not_le.mpr h2)),
      if_neg (not_le.mpr h3)]

/-- Closed instances of `profit_floor_inclusive`: each accept-at-equality
and reject-below-floor branch exercised at concrete prices. -/
theorem profit_floor_inclusive_witness :
    (qualifyPair ⟨2, 0, 0, 0, none, 1, 1, 1, "M"⟩ ⟨some 102, some 1⟩ ⟨some 100, some 1⟩
      = some ⟨100, 102, 1, "long"⟩)
    ∧ (qualifyPair ⟨2, 0, 0, 0, none, 1, 1, 1, "M"⟩ ⟨some 100, some 1⟩ ⟨some 102, some 1⟩
      = some ⟨100, 102, 1, "short"⟩)
    ∧ (qualifyPair ⟨2, 0, 0, 0, none, 1, 1, 1, "M"⟩ ⟨some 101, some 1⟩ ⟨some 100, some 1⟩
      = none)
    ∧ (scan_inversions_candidate ⟨2, 0, 0, 0, none, 1, 1, 1, "M"⟩
        [⟨some 100, some 1, some "BUY"⟩, ⟨some 102, some 1, some "SELL"⟩]
      = some ⟨100, 102, 1, "long"⟩)
    ∧ (scan_inversions_candidate ⟨-48, 0, 0, 1/2, none, 1, 1, 1, "M"⟩
        [⟨some 100, some 1, some "BUY"⟩, ⟨some 102, some 1, some "SELL"⟩]
      = some ⟨100, 102, 1, "short"⟩)
    ∧ (scan_inversions_candidate ⟨2, 0, 0, 0, none, 1, 1, 1, "M"⟩
        [⟨some 100, some 1, some "BUY"⟩, ⟨some 101, some 1, some "SELL"⟩]
      = none) := by
  refine ⟨?_, ?_, ?_, ?_, ?_, ?_⟩
  · exact (profit_floor_inclusive _ 102 1 100 1 0 0 0 0 []).1
      (by norm_num) (by norm_num [full_book_long_profit])
  · exact (profit_floor_inclusive _ 100 1 102 1 0 0 0 0 []).2.1
      (by norm_num) (by norm_num) (by norm_num [full_book_short_profit])
  · exact (profit_floor_inclusive _ 101 1 100 1 0 0 0 0 []).2.2.1
      (by norm_num [full_book_long_profit]) (by norm_num [full_book_short_profit])
  · exact (profit_floor_inclusive _ 0 0 0 0 100 1 102 1 []).2.2.2.1
      (by norm_num)
      (by norm_num [inversion_long_profit, inversion_short_profit])
      (by norm_num [inversion_long_profit])
  · exact (profit_floor_inclusive _ 0 0 0 0 100 1 102 1 []).2.2.2.2.1
      (by norm_num)
      (by norm_num [inversion_long_profit, inversion_short_profit])
      (by norm_num [inversion_short_profit])
  · exact (profit_floor_inclusive _ 0 0 0 0 100 1 101 1 []).2.2.2.2.2
      (by norm_num)
      (by norm_num [inversion_long_profit])
      (by norm_num [inversion_short_profit])

/-- Closed instance of `margin_gate_strict_inclusive`: balance 1000,
reserve 1.0, leverage 1 — entry notional 1001 is rejected, entry
notional 1000 passes the margin gate. -/
theorem margin_gate_strict_inclusive_witness :
    handle_order cfgZero st1000 1001 1002 1 "long" oracleOk = (st1000, .skipBalance)
    ∧ (handle_order cfgZero st1000 1000 1001 1 "long" oracleOk).2.passedMarginGate
        = true :=
  ⟨(margin_gate_strict_inclusive cfgZero st1000 1001 1002 1 "long" oracleOk none
      rfl rfl).1 (by norm_num [cfgZero, st1000, refresh_balance, oracleOk, clipSize, initState]),
    (margin_gate_strict_inclusive cfgZero st1000 1000 1001 1 "long" oracleOk none
      rfl rfl).2 (by norm_num [cfgZero, st1000, refresh_balance, oracleOk, clipSize, initState])⟩

lemma applyInsertEntry_view_congr (st1 st2 : BotState) (e : InsertEntry)
    (h : viewOf st1 = viewOf st2) :
    viewOf (applyInsertEntry st1 e) = viewOf (applyInsertEntry st2 e) := by
  obtain ⟨hb, hbq, ha, haq⟩ :
      st1.best_bid = st2.best_bid ∧ st1.best_bid_qty = st2.best_bid_qty ∧
        st1.best_ask = st2.best_ask ∧ st1.best_ask_qty = st2.best_ask_qty := by
    simpa [viewOf, Prod.ext_iff] using h
  rcases e with ⟨p, q, s⟩
  rcases p with _ | p
  · exact h
  rcases q with _ | q
  · exact h
  rcases s with _ | s
  · exact h
  simp only [applyInsertEntry]
  by_cases hbuy : s = "BUY"
  · simp only [hbuy, if_pos]
    rw [hb]
    cases st2.best_bid with
    | none => simp [viewOf, ha, haq]
    | some b =>
      by_cases hgt : p > b
      · simp [hgt, viewOf, ha, haq]
      · simp [hgt, viewOf, hb, hbq, ha, haq]
  · by_cases hsell : s = "SELL"
    · simp only [hbuy, if_neg, hsell, if_pos, if_false]
      rw [ha]
      cases st2.best_ask with
      | none => simp [viewOf, hb, hbq]
      | some a =>
        by_cases hlt : p < a
        · simp [hlt, viewOf, hb, hbq]
        · simp [hlt, viewOf, hb, hbq, ha, haq]
    · simp only [hbuy, hsell, if_false]
      exact h

lemma foldl_insert_view_congr (l : List InsertEntry) :
    ∀ (st1 st2 : BotState), viewOf st1 = viewOf st2 →
      viewOf (l.foldl applyInsertEntry st1) = viewOf (l.foldl applyInsertEntry st2) := by
  induction l with
  | nil => intro st1 st2 h; exact h
  | cons e l ih =>
    intro st1 st2 h
    exact ih _ _ (applyInsertEntry_view_congr st1 st2 e h)

/-- C10: the pairwise cross-check reads only the first two inserts — its
result is invariant under everything after them, and fewer than two
inserts can never produce a candidate — while every insert of the batch
(including those beyond the first two) still flows through the
best-bid/ask update loop afterwards. -/
theorem inversions_first_two_only (cfg : Cfg) (a b : InsertEntry)
    (rest rest' l inserts : List InsertEntry)
    (st : BotState) (o1 o2 : HandleOracle) :
    (scan_inversions_candidate cfg (a :: b :: rest)
      = scan_inversions_candidate cfg (a :: b :: rest'))
    ∧ (l.length < 2 → scan_inversions_candidate cfg l = none)
    ∧ ((scan_inversions cfg st inserts o2).2 = false →
      viewOf (on_order_book cfg st ⟨none, none, inserts⟩ o1 o2).1
        = viewOf (inserts.foldl applyInsertEntry st)) := by
  refine ⟨rfl, ?_, ?_⟩
  · intro hl
    rcases l with _ | ⟨x, _ | ⟨y, t⟩⟩
    · rfl
    · rfl
    · simp at hl; omega
  · intro hnr
    show viewOf (onOrderBookInserts cfg st inserts o2).1
      = viewOf (inserts.foldl applyInsertEntry st)
    unfold onOrderBookInserts
    by_cases he : inserts.isEmpty
    · simp only [he, if_pos]
    · simp only [he, Bool.false_eq_true, if_false]
      rcases hs : scan_inversions cfg st inserts o2 with ⟨st1, raised⟩
      cases raised
      · have hv : viewOf st1 = viewOf st := by
          have hview := scan_inversions_view cfg st inserts o2
          rw [hs] at hview; exact hview
        exact foldl_insert_view_congr inserts st1 st hv
      · rw [hs] at hnr; exact absurd hnr (by simp)

/-- Closed instance of `inversions_first_two_only` on concrete inserts:
a third insert neither changes the pairwise verdict nor is skipped by
the view update. -/
theorem inversions_first_two_only_witness :
    (scan_inversions_candidate cfgZero
        [⟨some 100, some 1, some "BUY"⟩, ⟨some 101, some 1, some "SELL"⟩,
          ⟨some 500, some 2, some "BUY"⟩]
      = scan_inversions_candidate cfgZero
        [⟨some 100, some 1, some "BUY"⟩, ⟨some 101, some 1, some "SELL"⟩])
    ∧ (scan_inversions_candidate cfgZero [⟨some 100, some 1, some "BUY"⟩] = none)
    ∧ viewOf (on_order_book cfgZero initState
        ⟨none, none, [⟨some 100, some 1, some "BUY"⟩]⟩ oracleOk oracleOk).1
      = viewOf ([⟨some 100, some 1, some "BUY"⟩].foldl applyInsertEntry initState) :=
  have h := inversions_first_two_only cfgZero
    ⟨some 100, some 1, some "BUY"⟩ ⟨some 101, some 1, some "SELL"⟩
    [⟨some 500, some 2, some "BUY"⟩] [] [⟨some 100, some 1, some "BUY"⟩]
    [⟨some 100, some 1, some "BUY"⟩] initState oracleOk oracleOk
  ⟨h.1, h.2.1 (by norm_num), h.2.2 rfl⟩

lemma applyInsertEntry_malformed (st : BotState) (e : InsertEntry)
    (hm : e.price = none ∨ e.size = none ∨ e.side = none) :
    applyInsertEntry st e = st := by
  rcases e with ⟨p, q, s⟩
  rcases p with _ | p
  · rfl
  rcases q with _ | q
  · rfl
  rcases s with _ | s
  · rfl
  · simp at hm

/-- C3 (counterexample): the pairwise delta cross-check does **not**
continue past a malformed entry.  With a malformed first insert followed
by a well-formed crossing BUY/SELL pair, the check yields nothing, even
though the same pair alone yields a candidate — the malformed entry
aborts the pairwise scan instead of being skipped. -/
theorem malformed_aborts_pairwise_counterexample :
    (scan_inversions_candidate cfgZero
        [⟨none, some 1, some "BUY"⟩, ⟨some 100, some 1, some "BUY"⟩,
          ⟨some 101, some 1, some "SELL"⟩] = none)
    ∧ (scan_inversions_candidate cfgZero
        [⟨some 100, some 1, some "BUY"⟩, ⟨some 101, some 1, some "SELL"⟩]
      = some ⟨100, 101, 1, "long"⟩) := by
  constructor
  · rfl
  · norm_num [scan_inversions_candidate, inversion_long_profit,
      inversion_short_profit, cfgZero]

/-- C3 (amended): a malformed entry is skipped individually by the
best-bid/ask insert-update loop, which processes the rest of the batch;
the pairwise cross-check instead returns with no candidate (and no state
change, no submission) when either of its two inspected entries is
malformed. -/
theorem malformed_insert_handling (cfg : Cfg) (st : BotState) (o : HandleOracle)
    (xs ys rest : List InsertEntry) (e e1 e2 : InsertEntry)
    (hm : e.price = none ∨ e.size = none ∨ e.side = none)
    (hm2 : e1.price = none ∨ e1.size = none ∨ e1.side = none ∨
      e2.price = none ∨ e2.size = none ∨ e2.side = none) :
    ((xs ++ e :: ys).foldl applyInsertEntry st = (xs ++ ys).foldl applyInsertEntry st)
    ∧ scan_inversions_candidate cfg (e1 :: e2 :: rest) = none
    ∧ scan_inversions cfg st (e1 :: e2 :: rest) o = (st, false) := by
  have h2 : scan_inversions_candidate cfg (e1 :: e2 :: rest) = none := by
    rcases e1 with ⟨p1, q1, s1⟩
    rcases e2 with ⟨p2, q2, s2⟩
    rcases p1 with _ | p1 <;> rcases q1 with _ | q1 <;> rcases s1 with _ | s1 <;>
      rcases p2 with _ | p2 <;> rcases q2 with _ | q2 <;> rcases s2 with _ | s2 <;>
      first
        | rfl
        | simp at hm2
  refine ⟨?_, h2, ?_⟩
  · rw [List.foldl_append, List.foldl_append, List.foldl_cons,
      applyInsertEntry_malformed _ _ hm]
  · unfold scan_inversions
    rw [h2]

/-- Closed instance of `malformed_insert_handling` at a concrete batch. -/
theorem malformed_insert_handling_witness :
    ((([⟨some 100, some 1, some "BUY"⟩] ++ ⟨none, some 1, some "BUY"⟩ ::
        [⟨some 101, some 1, some "SELL"⟩] : List InsertEntry)).foldl
          applyInsertEntry initState
      = (([⟨some 100, some 1, some "BUY"⟩] ++
          [⟨some 101, some 1, some "SELL"⟩] : List InsertEntry)).foldl
            applyInsertEntry initState)
    ∧ scan_inversions_candidate cfgZero
        (⟨none, some 1, some "BUY"⟩ :: ⟨some 100, some 1, some "BUY"⟩ ::
          [⟨some 101, some 1, some "SELL"⟩]) = none
    ∧ scan_inversions cfgZero initState
        (⟨none, some 1, some "BUY"⟩ :: ⟨some 100, some 1, some "BUY"⟩ ::
          [⟨some 101, some 1, some "SELL"⟩]) oracleOk = (initState, false) :=
  malformed_insert_handling cfgZero initState oracleOk
    [⟨some 100, some 1, some "BUY"⟩] [⟨some 101, some 1, some "SELL"⟩]
    [⟨some 101, some 1, some "SELL"⟩]
    ⟨none, some 1, some "BUY"⟩ ⟨none, some 1, some "BUY"⟩
    ⟨some 100, some 1, some "BUY"⟩ (Or.inl rfl) (Or.inl rfl)

/-- One side's price/qty pair is set or unset together, for both sides.
This is the part of the spec's market-view invariant the code actually
maintains. -/
def PairedSides (st : BotState) : Prop :=
  st.best_bid.isSome = st.best_bid_qty.isSome
    ∧ st.best_ask.isSome = st.best_ask_qty.isSome

/-- A message whose snapshot top entries (when both sides are present
and nonempty) parse cleanly, so the four top-of-book assignments cannot
raise mid-sequence. -/
def WellFormedTop (msg : BookMessage) : Prop :=
  ∀ b bs a as_, msg.bids = some (b :: bs) → msg.asks = some (a :: as_) →
    b.price.isSome = true ∧ b.size.isSome = true
      ∧ a.price.isSome = true ∧ a.size.isSome = true

lemma pairedSides_of_view_eq (st1 st2 : BotState)
    (h : viewOf st1 = viewOf st2) (h2 : PairedSides st2) : PairedSides st1 := by
  obtain ⟨hb, hbq, ha, haq⟩ :
      st1.best_bid = st2.best_bid ∧ st1.best_bid_qty = st2.best_bid_qty ∧
        st1.best_ask = st2.best_ask ∧ st1.best_ask_qty = st2.best_ask_qty := by
    simpa [viewOf, Prod.ext_iff] using h
  exact ⟨by rw [hb, hbq]; exact h2.1, by rw [ha, haq]; exact h2.2⟩

lemma applyInsertEntry_paired (st : BotState) (e : InsertEntry)
    (h : PairedSides st) : PairedSides (applyInsertEntry st e) := by
  rcases e with ⟨p, q, s⟩
  rcases p with _ | p
  · exact h
  rcases q with _ | q
  · exact h
  rcases s with _ | s
  · exact h
  simp only [applyInsertEntry]
  by_cases hbuy : s = "BUY"
  · simp only [hbuy, if_pos]
    cases st.best_bid with
    | none => exact ⟨rfl, h.2⟩
    | some b =>
      by_cases hgt : p > b
      · simp only [hgt, if_pos]
        exact ⟨rfl, h.2⟩
      · simp only [hgt, if_neg]
        exact h
  · by_cases hsell : s = "SELL"
    · simp only [hbuy, if_neg, hsell, if_pos, if_false]
      cases st.best_ask with
      | none => exact ⟨h.1, rfl⟩
      | some a =>
        by_cases hlt : p < a
        · simp only [hlt, if_pos]
          exact ⟨h.1, rfl⟩
        · simp only [hlt, if_neg]
          exact h
    · simp only [hbuy, hsell, if_false]
      exact h

lemma foldl_insert_paired (l : List InsertEntry) :
    ∀ st : BotState, PairedSides st → PairedSides (l.foldl applyInsertEntry st) := by
  induction l with
  | nil => intro st h; exact h
  | cons e l ih =>
    intro st h
    exact ih _ (applyInsertEntry_paired st e h)

lemma scan_full_book_view (cfg : Cfg) (st : BotState) (bids asks : List Level)
    (o : HandleOracle) :
    viewOf (scan_full_book cfg st bids asks o).1 = viewOf st := by
  unfold scan_full_book
  rcases hc : scan_full_book_candidate cfg st.has_open_position bids asks with _ | c
  · rfl
  · rcases hh : handle_order cfg st c.price_buy c.price_sell c.size c.direction o
      with ⟨st1, r⟩
    have hv : viewOf st1 = viewOf st := by
      have hview := handle_order_view cfg st c.price_buy c.price_sell c.size c.direction o
      rw [hh] at hview; exact hview
    show viewOf
      (match handle_order cfg st c.price_buy c.price_sell c.size c.direction o with
        | (st1, HandleResult.raised) => (st1, true)
        | (st1, _) => (st1, false)).1 = viewOf st
    rw [hh]
    cases r <;> exact hv

lemma onOrderBookInserts_paired (cfg : Cfg) (st : BotState)
    (inserts : List InsertEntry) (o2 : HandleOracle) (h : PairedSides st) :
    PairedSides (onOrderBookInserts cfg st inserts o2).1 := by
  unfold onOrderBookInserts
  by_cases he : inserts.isEmpty
  · simp only [he, if_pos]
    exact foldl_insert_paired inserts st h
  · simp only [he, Bool.false_eq_true, if_false]
    rcases hs : scan_inversions cfg st inserts o2 with ⟨st1, raised⟩
    have h1 : PairedSides st1 := by
      have hview := scan_inversions_view cfg st inserts o2
      rw [hs] at hview
      exact pairedSides_of_view_eq st1 st hview h
    cases raised
    · exact foldl_insert_paired inserts st1 h1
    · exact h1

/-- C7 (counterexample): a single well-formed BUY insert delta on a
fresh state populates only the bid side of the market view — the claim
that the four fields are always simultaneously present or absent fails. -/
theorem view_all_four_counterexample :
    ((on_order_book cfgZero initState
        ⟨none, none, [⟨some 100, some 1, some "BUY"⟩]⟩ oracleOk oracleOk).1.best_bid
      = some 100)
    ∧ ((on_order_book cfgZero initState
        ⟨none, none, [⟨some 100, some 1, some "BUY"⟩]⟩ oracleOk oracleOk).1.best_bid_qty
      = some 1)
    ∧ ((on_order_book cfgZero initState
        ⟨none, none, [⟨some 100, some 1, some "BUY"⟩]⟩ oracleOk oracleOk).1.best_ask
      = none)
    ∧ ((on_order_book cfgZero initState
        ⟨none, none, [⟨some 100, some 1, some "BUY"⟩]⟩ oracleOk oracleOk).1.best_ask_qty
      = none)
    ∧ ((on_order_book cfgZero initState
        ⟨none, none, [⟨some 100, some 1, some "BUY"⟩]⟩ oracleOk oracleOk).2
      = false) :=
  ⟨rfl, rfl, rfl, rfl, rfl⟩

/-- C7 (amended): what `on_order_book` does maintain is the per-side
pairing — each side's price and quantity are set together — for every
message whose snapshot top parses cleanly; the fresh state satisfies it
too.  Cross-side simultaneity does not hold (see the counterexample). -/
theorem view_pairing_per_side (cfg : Cfg) (st : BotState) (msg : BookMessage)
    (o1 o2 : HandleOracle) (hst : PairedSides st) (hwf : WellFormedTop msg) :
    PairedSides (on_order_book cfg st msg o1 o2).1 ∧ PairedSides initState := by
  refine ⟨?_, ⟨rfl, rfl⟩⟩
  rcases msg with ⟨mb, ma, inserts⟩
  rcases mb with _ | bl
  · exact onOrderBookInserts_paired cfg st inserts o2 hst
  rcases bl with _ | ⟨b, bs⟩
  · rcases ma with _ | al
    · exact onOrderBookInserts_paired cfg st inserts o2 hst
    · rcases al with _ | ⟨a, as_⟩
      · exact onOrderBookInserts_paired cfg st inserts o2 hst
      · exact onOrderBookInserts_paired cfg st inserts o2 hst
  rcases ma with _ | al
  · exact onOrderBookInserts_paired cfg st inserts o2 hst
  rcases al with _ | ⟨a, as_⟩
  · exact onOrderBookInserts_paired cfg st inserts o2 hst
  obtain ⟨hbp, hbq, hap, haq⟩ := hwf b bs a as_ rfl rfl
  obtain ⟨bp, hbp⟩ := Option.isSome_iff_exists.mp hbp
  obtain ⟨bq, hbq⟩ := Option.isSome_iff_exists.mp hbq
  obtain ⟨ap, hap⟩ := Option.isSome_iff_exists.mp hap
  obtain ⟨aq, haq⟩ := Option.isSome_iff_exists.mp haq
  show PairedSides (match applySnapshotTop st b a with
    | (st1, true) => (st1, true)
    | (st1, false) =>
      match scan_full_book cfg st1 (b :: bs) (a :: as_) o1 with
      | (st2, true) => (st2, true)
      | (st2, false) => onOrderBookInserts cfg st2 inserts o2).1
  have hsnap : applySnapshotTop st b a = ({ st with best_bid := some bp, best_bid_qty := some bq, best_ask := some ap, best_ask_qty := some aq }, false) := by
    simp [applySnapshotTop, hbp, hbq, hap, haq]
  rw [hsnap]
  have hp1 : PairedSides { st with best_bid := some bp, best_bid_qty := some bq, best_ask := some ap, best_ask_qty := some aq } := ⟨rfl, rfl⟩
  rcases hfs : scan_full_book cfg { st with best_bid := some bp, best_bid_qty := some bq, best_ask := some ap, best_ask_qty := some aq } (b :: bs) (a :: as_) o1
    with ⟨st2, raised2⟩
  have hp2 : PairedSides st2 := by
    have hview := scan_full_book_view cfg { st with best_bid := some bp, best_bid_qty := some bq, best_ask := some ap, best_ask_qty := some aq } (b :: bs) (a :: as_) o1
    rw [hfs] at hview
    exact pairedSides_of_view_eq st2 _ hview hp1
  show PairedSides (match scan_full_book cfg { st with best_bid := some bp, best_bid_qty := some bq, best_ask := some ap, best_ask_qty := some aq } (b :: bs) (a :: as_) o1 with
    | (st2, true) => (st2, true)
    | (st2, false) => onOrderBookInserts cfg st2 inserts o2).1
  rw [hfs]
  cases raised2
  · exact onOrderBookInserts_paired cfg st2 inserts o2 hp2
  · exact hp2

/-- Closed instance of `view_pairing_per_side` on a concrete snapshot
message over the fresh state. -/
theorem view_pairing_per_side_witness :
    PairedSides (on_order_book cfgZero initState
      ⟨some [⟨some 100, some 1⟩], some [⟨some 101, some 2⟩],
        [⟨some 99, some 1, some "BUY"⟩]⟩ oracleOk oracleOk).1
    ∧ PairedSides initState :=
  view_pairing_per_side cfgZero initState
    ⟨some [⟨some 100, some 1⟩], some [⟨some 101, some 2⟩],
      [⟨some 99, some 1, some "BUY"⟩]⟩ oracleOk oracleOk ⟨rfl, rfl⟩
    (by
      intro b bs a as_ hb ha
      cases hb; cases ha
      exact ⟨rfl, rfl, rfl, rfl⟩)

lemma positionsLoop_find_open (market : String) (st : BotState) :
    ∀ (results : List PositionData) (lt lp : Option ℚ) (pos : PositionData),
      results.find? (isOpenFor market) = some pos →
      positionsLoop market st results lt lp
        = { st with has_open_position := true, open_position_price := openPosPriceOf pos } := by
  intro results
  induction results with
  | nil =>
    intro lt lp pos h
    simp at h
  | cons p rest ih =>
    intro lt lp pos h
    by_cases hm : p.market = some market
    · by_cases hop : p.status = some "OPEN"
      · have hp : isOpenFor market p = true := by
          simp [isOpenFor, hm, hop]
        rw [List.find?_cons_of_pos rest hp] at h
        cases Option.some.inj h
        unfold positionsLoop
        rw [if_neg (fun hc => hc hm), if_pos hop]
      · have hp : ¬ isOpenFor market p = true := by
          simp [isOpenFor, hop]
        rw [List.find?_cons_of_neg rest hp] at h
        unfold positionsLoop
        rw [if_neg (fun hc => hc hm), if_neg hop]
        by_cases hcl : p.status = some "CLOSED"
        · rw [if_pos hcl]
          split
          · exact ih lt lp pos h
          · split
            · exact ih _ _ pos h
            · split
              · exact ih _ _ pos h
              · exact ih _ _ pos h
        · rw [if_neg hcl]
          exact ih lt lp pos h
    · have hp : ¬ isOpenFor market p = true := by
        simp [isOpenFor, hm]
      rw [List.find?_cons_of_neg rest hp] at h
      unfold positionsLoop
      rw [if_pos hm]
      exact ih lt lp pos h

/-- C9 (counterexample): the entry-price chain uses Python `or`, which
skips *falsy* values, not just null ones.  A position whose
`entry_price` is the non-null number `0` (with `price = 7`) yields
`open_position_price = 7`: the first **non-null** field (`entry_price`,
i.e. `0`) is not the one captured. -/
theorem entry_price_zero_skipped_counterexample :
    ((refresh_positions "M" initState (.ok
        [⟨some "M", some "OPEN", some (.num 0), none, none, some (.num 7),
          none, none, none⟩])).open_position_price = some 7)
    ∧ ((refresh_positions "M" initState (.ok
        [⟨some "M", some "OPEN", some (.num 0), none, none, some (.num 7),
          none, none, none⟩])).has_open_position = true)
    ∧ some (7 : ℚ) ≠ some (0 : ℚ) := by
  refine ⟨rfl, rfl, by norm_num⟩

/-- C9 (amended): when `refresh_positions` finds the first position of
the configured market with status OPEN, it sets `has_open_position` and
derives `open_position_price` from the Python `or`-chain
`entry_price or avg_entry_price or open_price or price` — first *truthy*
value wins (null, `0` and `""` are passed over; the final field is used
whenever non-null) — parsed best-effort: a truthy but unparsable value,
or an all-absent chain, falls back to `None` without raising. -/
theorem refresh_positions_price_chain (market : String) (st : BotState)
    (results : List PositionData) (pos pos2 : PositionData) (v : PyVal) (q : ℚ)
    (hfind : results.find? (isOpenFor market) = some pos) :
    ((refresh_positions market st (.ok results)).has_open_position = true
      ∧ (refresh_positions market st (.ok results)).open_position_price
          = (posPriceChain pos).bind PyVal.decimalOf)
    ∧ (pos2.entry_price = some v → v.truthy = true → v.decimalOf = some q →
        openPosPriceOf pos2 = some q)
    ∧ (pos2.entry_price = none → pos2.avg_entry_price = none →
        pos2.open_price = none → pos2.price = none → openPosPriceOf pos2 = none)
    ∧ (posPriceChain pos2 = some v → v.decimalOf = none →
        openPosPriceOf pos2 = none) := by
  refine ⟨?_, ?_, ?_, ?_⟩
  · simp only [refresh_positions]
    rw [positionsLoop_find_open market _ results none none pos hfind]
    exact ⟨rfl, rfl⟩
  · intro he ht hd
    simp [openPosPriceOf, posPriceChain, pyOr, he, ht, hd]
  · intro h1 h2 h3 h4
    simp [openPosPriceOf, posPriceChain, pyOr, h1, h2, h3, h4]
  · intro hc hd
    simp [openPosPriceOf, hc, hd]

/-- Closed instances of `refresh_positions_price_chain` at concrete
positions: a truthy parsable `entry_price`, an all-absent chain, and a
truthy unparsable chain value. -/
theorem refresh_positions_price_chain_witness :
    ((refresh_positions "M" initState (.ok
        [⟨some "M", some "OPEN", some (.num 5), none, none, none,
          none, none, none⟩])).has_open_position = true
      ∧ (refresh_positions "M" initState (.ok
        [⟨some "M", some "OPEN", some (.num 5), none, none, none,
          none, none, none⟩])).open_position_price
          = (posPriceChain ⟨some "M", some "OPEN", some (.num 5), none, none, none,
              none, none, none⟩).bind PyVal.decimalOf)
    ∧ openPosPriceOf ⟨some "M", some "OPEN", some (.num 5), none, none, none,
        none, none, none⟩ = some 5
    ∧ openPosPriceOf ⟨some "M", some "OPEN", none, none, none, none,
        none, none, none⟩ = none
    ∧ openPosPriceOf ⟨some "M", some "OPEN", some (.str "oops" none), none, none,
        none, none, none, none⟩ = none := by
  have h1 := refresh_positions_price_chain "M" initState
    [⟨some "M", some "OPEN", some (.num 5), none, none, none, none, none, none⟩]
    ⟨some "M", some "OPEN", some (.num 5), none, none, none, none, none, none⟩
    ⟨some "M", some "OPEN", some (.num 5), none, none, none, none, none, none⟩
    (.num 5) 5 rfl
  have h2 := refresh_positions_price_chain "M" initState
    [⟨some "M", some "OPEN", some (.num 5), none, none, none, none, none, none⟩]
    ⟨some "M", some "OPEN", some (.num 5), none, none, none, none, none, none⟩
    ⟨some "M", some "OPEN", none, none, none, none, none, none, none⟩
    (.num 5) 5 rfl
  have h3 := refresh_positions_price_chain "M" initState
    [⟨some "M", some "OPEN", some (.num 5), none, none, none, none, none, none⟩]
    ⟨some "M", some "OPEN", some (.num 5), none, none, none, none, none, none⟩
    ⟨some "M", some "OPEN", some (.str "oops" none), none, none, none, none, none, none⟩
    (.str "oops" none) 5 rfl
  exact ⟨h1.1, h1.2.1 rfl (by norm_num [PyVal.truthy]) rfl,
    h2.2.2.1 rfl rfl rfl rfl, h3.2.2.2 rfl rfl⟩
